import Mathlib

/-!
# Verification of the sakuraapp/service-client session layer

A shallow embedding of the TypeScript `Client` class (RPC session over a
websocket transport) together with the `Packet` data model, the JSON helper
`parseJSON`, and the connection state machine of `connect()`.

JavaScript dynamic values are embedded as the inductive `JValue`; the
exception that property access on `undefined`/`null` raises is embedded as
`JsError`.  Handler callbacks registered in the client are embedded by
their observable behaviour: the closure created by `Client.send` (which
settles a promise according to the payload's `status` field) and opaque
user-supplied handlers (tagged by a number, their invocations recorded as
events).
-/

/-- A JavaScript/JSON value as produced by `JSON.parse`. -/
inductive JValue where
  | jnull
  | jbool (b : Bool)
  | jnum (n : Int)
  | jstr (s : String)
  | jarr (elems : List JValue)
  | jobj (fields : List (String × JValue))

/-- JavaScript truthiness of a value. -/
def truthy : JValue → Bool
  | .jnull => false
  | .jbool b => b
  | .jnum n => n != 0
  | .jstr s => s != ""
  | .jarr _ => true
  | .jobj _ => true

/-- Truthiness of a possibly-`undefined` value (`none` = `undefined`). -/
def truthyOpt : Option JValue → Bool
  | none => false
  | some v => truthy v

/-- Property access `v[k]` on a JavaScript value: objects yield the field
(or `undefined`), other non-nullish primitives yield `undefined`.  Access on
`null`/`undefined` throws and is handled separately at the use sites. -/
def JValue.getProp : JValue → String → Option JValue
  | .jobj fs, k => (fs.find? (fun f => f.1 = k)).map (·.2)
  | _, _ => none

/-- JavaScript strict equality `v === s` of a possibly-undefined value
against a string literal. -/
def jsEqStr (v : Option JValue) (s : String) : Bool :=
  match v with
  | some (.jstr t) => t = s
  | _ => false

/-- JavaScript strict equality `v === n` against a number literal. -/
def jsEqNum (v : JValue) (n : Int) : Bool :=
  match v with
  | .jnum m => m = n
  | _ => false

/-- JavaScript `String(v)` conversion (the conversion used by
`String(packet.data.i)` in `Client.handle`), exact for the nullish,
boolean, number, string and plain-object shapes that occur as correlation
ids; array stringification (a recursive comma join, irrelevant to every
property below) is approximated by its empty-array case. -/
def jsToStr : JValue → String
  | .jnull => "null"
  | .jbool true => "true"
  | .jbool false => "false"
  | .jnum n => n.repr
  | .jstr s => s
  | .jobj _ => "[object Object]"
  | .jarr _ => ""

/-- `String(v)` where `v` may be `undefined`. -/
def jsToString : Option JValue → String
  | none => "undefined"
  | some v => jsToStr v

/-- Exceptions thrown by the embedded JavaScript code. -/
inductive JsError where
  | typeError
  deriving DecidableEq, Repr

/-! ## Data model: packets, handlers, options (src/types.ts, src/index.ts) -/

/-- An inbound packet as seen by `Client.handle`: the raw parsed object with
the five wire fields read off by property access (`packet.data.s/n/t/d/i`).
`none` models an absent field (`undefined`). -/
structure PacketW where
  s : Option JValue := none
  n : Option JValue := none
  t : Option JValue := none
  d : Option JValue := none
  i : Option JValue := none

/-- View of a parsed JSON value as a packet (the field accesses that
`Client.handle` performs on `packet.data`). -/
def toPacket (v : JValue) : PacketW :=
  { s := v.getProp "s", n := v.getProp "n", t := v.getProp "t",
    d := v.getProp "d", i := v.getProp "i" }

/-- An outbound wire object, as built by `Client.send` / `Client.write`. -/
structure PacketOut where
  s : Option String
  n : String
  t : String
  d : Option JValue
  i : String

/-- The observable behaviour of a registered handler callback:
  * `oneShot pid` — the closure pushed by `Client.send`, which settles the
    pending promise `pid` according to the callback payload;
  * `user tag` — an opaque handler given to `registerHandler`; its
    invocations are recorded as events. -/
inductive HandlerBehavior where
  | oneShot (pid : Nat)
  | user (tag : Nat)
  deriving DecidableEq

/-- A `Handler` entry of the registry (`src/types.ts`): name, type and
callback. `type` is one of the `PacketType` strings. -/
structure HandlerEntry where
  name : String
  type : String
  behavior : HandlerBehavior
  deriving DecidableEq

/-- The state of one JavaScript promise returned by `call`/`watch`. A
rejection stores the message of the `Error` passed to `reject`. -/
inductive PromiseState where
  | pending
  | resolved (v : Option JValue)
  | rejected (msg : String)

/-- The `Options` argument of the `Client` constructor (all optional). -/
structure Options where
  name : Option String := none
  host : Option String := none
  port : Option Nat := none
  path : Option String := none
  token : Option String := none
  autoReconnect : Option Bool := none
  reconnectInterval : Option Nat := none
  reconnectIntervalMultiplier : Option Nat := none

def DEFAULT_HOST : String := "127.0.0.1"

def DEFAULT_PORT : Nat := 9998

/-- The options after the `{...DEFAULT_OPTIONS, ...opts}` merge in the
constructor: the six defaulted fields are set, `name`/`token` stay
optional. -/
structure ResolvedOptions where
  name : Option String
  host : String
  port : Nat
  path : String
  token : Option String
  autoReconnect : Bool
  reconnectInterval : Nat
  reconnectIntervalMultiplier : Nat

/-- `{...DEFAULT_OPTIONS, ...opts}` (constructor). -/
def mergeOptions (o : Options) : ResolvedOptions :=
  { name := o.name
    host := o.host.getD DEFAULT_HOST
    port := o.port.getD DEFAULT_PORT
    path := o.path.getD "/"
    token := o.token
    autoReconnect := o.autoReconnect.getD true
    reconnectInterval := o.reconnectInterval.getD 2000
    reconnectIntervalMultiplier := o.reconnectIntervalMultiplier.getD 1 }

/-- The mutable state of a `Client` instance.  `socket = none` models a
client whose `connect()` was never run (the `socket` field still
`undefined`); promises are stored in an association list keyed by an
allocation number so that the one-shot closures can refer to them. -/
structure ClientState where
  id : String
  opts : ResolvedOptions
  socket : Option Unit
  handlers : List HandlerEntry
  callbacks : Nat
  reconnectTries : Nat
  destroyed : Bool
  promises : List (Nat × PromiseState)
  nextPid : Nat

/-- A freshly constructed `Client` (`new Client(opts)` with uuid `uuid`). -/
def mkClient (opts : Options) (uuid : String) : ClientState :=
  { id := uuid, opts := mergeOptions opts, socket := none, handlers := [],
    callbacks := 0, reconnectTries := 0, destroyed := false,
    promises := [], nextPid := 0 }

/-- Events observable on the client (EventEmitter emissions, handler
invocations, writes to the socket). -/
inductive Ev where
  | errorEvent (msg : String)
  | closeEvent (code : Int)
  | connectEvent
  | invokedUser (tag : Nat) (p : PacketW)
  | wrote (p : PacketOut)
  | reconnectScheduled (delayMs : Nat)

/-! ## Promise registry helpers -/

/-- Look up the state of promise `pid`. -/
def lookupProm : List (Nat × PromiseState) → Nat → Option PromiseState
  | [], _ => none
  | (k, v) :: t, pid => if k = pid then some v else lookupProm t pid

/-- Settle promise `pid` with outcome `o` — a JS promise settles only once,
so an already-settled promise is left unchanged. -/
def settleList : List (Nat × PromiseState) → Nat → PromiseState → List (Nat × PromiseState)
  | [], _, _ => []
  | (k, v) :: t, pid, o =>
    if k = pid then
      match v with
      | .pending => (k, o) :: t
      | _ => (k, v) :: t
    else (k, v) :: settleList t pid o

def settle (st : ClientState) (pid : Nat) (o : PromiseState) : ClientState :=
  { st with promises := settleList st.promises pid o }

/-! ## The one-shot closure of `Client.send` (lines 199–211)

```ts
handler: (packet: Packet<T>) => {
    const data = packet.data.d as { status?: number }
    if (typeof data.status !== 'undefined') {
        if (data.status === 200) { resolve(packet.data.d) }
        else { reject(new Error(`Response code: ${data.status}`)) }
    } else { resolve(packet.data.d) }
}
```
Reading `data.status` throws a `TypeError` when the payload is `undefined`
or `null`; otherwise the promise resolves with the *whole* payload
`packet.data.d` (status 200 or no status) or rejects with the status. -/

def callbackSettle (d : Option JValue) : Except JsError PromiseState :=
  match d with
  | none => .error .typeError
  | some .jnull => .error .typeError
  | some v =>
    match v.getProp "status" with
    | some st =>
      if jsEqNum st 200 then .ok (.resolved d)
      else .ok (.rejected ("Response code: " ++ jsToStr st))
    | none => .ok (.resolved d)

/-! ## Handler lookup and dispatch (`Client.findHandler`, `Client.handle`) -/

/-- The predicate of `Client.findHandler`:
`handler.name === name && (!type || handler.type === type)`.
`name` and `type` are the raw values taken from the inbound packet
(`packet.data.n` / `packet.data.t`), so the comparisons are JS strict
equality of a string field against a dynamic value. -/
def handlerMatches (name type : Option JValue) (h : HandlerEntry) : Bool :=
  jsEqStr name h.name && (!truthyOpt type || jsEqStr type h.type)

/-- Index of the first list entry satisfying `p` (the combination
`find`/`indexOf` used by `Client.handle`: `indexOf` of the found element is
the index of the first match since `find` returns the first match). -/
def firstIdx (p : HandlerEntry → Bool) : List HandlerEntry → Option Nat
  | [] => none
  | h :: t => if p h then some 0 else (firstIdx p t).map (· + 1)

/-- The predicate used in the callback branch of `Client.handle`:
`findHandler(String(packet.data.i), 'callback')`.  Both arguments are
strings there, so the `findHandler` predicate reduces to this. -/
def callbackMatches (i : Option JValue) (h : HandlerEntry) : Bool :=
  h.name = jsToString i && h.type = "callback"

/-- Result of running a piece of client code that may also throw: the state
as mutated so far, the events emitted so far, and the escaped exception if
any (JS exceptions do not roll back prior mutations). -/
structure HandleResult where
  state : ClientState
  events : List Ev
  thrown : Option JsError

/-- Invoke a registered handler callback on a packet
(`handler.handler(packet)`). -/
def invokeHandler (st : ClientState) (h : HandlerEntry) (p : PacketW) : HandleResult :=
  match h.behavior with
  | .user tag => ⟨st, [.invokedUser tag p], none⟩
  | .oneShot pid =>
    match callbackSettle p.d with
    | .error e => ⟨st, [], some e⟩
    | .ok o => ⟨settle st pid o, [], none⟩

/-- `Client.handle` (lines 125–145): route an inbound packet.  For
`t === 'callback'` the handler is looked up by `(String(i), 'callback')`
and its index remembered; otherwise by `(n, t)` with index `-1`.  A missing
handler emits `error: Invalid packet`.  After a callback-branch invocation
returns normally the entry is spliced out; an exception skips the splice. -/
def handle (st : ClientState) (p : PacketW) : HandleResult :=
  if jsEqStr p.t "callback" then
    match firstIdx (callbackMatches p.i) st.handlers with
    | none => ⟨st, [.errorEvent "Invalid packet"], none⟩
    | some idx =>
      match st.handlers[idx]? with
      | none => ⟨st, [.errorEvent "Invalid packet"], none⟩
      | some h =>
        let r := invokeHandler st h p
        match r.thrown with
        | some e => ⟨r.state, r.events, some e⟩
        | none =>
          ⟨{ r.state with handlers := r.state.handlers.eraseIdx idx },
            r.events, none⟩
  else
    match st.handlers.find? (handlerMatches p.n p.t) with
    | none => ⟨st, [.errorEvent "Invalid packet"], none⟩
    | some h => invokeHandler st h p

/-! ## `parseJSON` (src/utils/index.ts) and the `message` listener -/

/-- `parseJSON(str, def)`: `JSON.parse` or the default on exception.  The
platform `JSON.parse` is a parameter `parse` (`none` = it throws). -/
def parseJSON (parse : String → Option JValue) (str : String) (dflt : JValue) : JValue :=
  (parse str).getD dflt

/-- The `socket.on('message')` listener (lines 93–99): parse with default
`null`; only a truthy result is wrapped in a `Packet` and handled. -/
def onMessage (parse : String → Option JValue) (st : ClientState) (raw : String) :
    HandleResult :=
  let packet := parseJSON parse raw .jnull
  if truthy packet then handle st (toPacket packet) else ⟨st, [], none⟩

/-! ## `Client.send`, `call`, `watch`, `registerHandler` -/

/-- The correlation id `` `${this.id}-${this.callbacks++}` ``. -/
def corrId (id : String) (c : Nat) : String := id ++ "-" ++ Nat.repr c

structure SendResult where
  state : ClientState
  pid : Nat
  wire : PacketOut

/-- `Client.send` (lines 188–223): split the path, allocate the correlation
id, push the one-shot callback handler, and write the envelope
(`s` = first path segment, `n` = rest re-joined with `/`). -/
def send (st : ClientState) (type : String) (path : String) (d : Option JValue) :
    SendResult :=
  let parts := path.splitOn "/"
  let id := corrId st.id st.callbacks
  let pid := st.nextPid
  { state :=
      { st with
        callbacks := st.callbacks + 1
        nextPid := pid + 1
        promises := st.promises ++ [(pid, .pending)]
        handlers := st.handlers ++ [⟨id, "callback", .oneShot pid⟩] }
    pid := pid
    wire :=
      { s := parts.head?, n := String.intercalate "/" parts.tail,
        t := type, d := d, i := id } }

def callSend (st : ClientState) (path : String) (d : Option JValue) : SendResult :=
  send st "call" path d

def watchSend (st : ClientState) (path : String) (d : Option JValue) : SendResult :=
  send st "watch" path d

/-- `Client.registerHandler` (lines 237–243). -/
def registerHandler (st : ClientState) (name type : String) (tag : Nat) : ClientState :=
  { st with handlers := st.handlers ++ [⟨name, type, .user tag⟩] }

def registerMethod (st : ClientState) (name : String) (tag : Nat) : ClientState :=
  registerHandler st name "call" tag

def registerWatcher (st : ClientState) (name : String) (tag : Nat) : ClientState :=
  registerHandler st name "watch" tag

/-! ## `destroy`, the `close` listener, and the reconnect timer -/

/-- `Client.destroy` (lines 183–186): `this.socket.close()` then
`this.destroyed = true`.  On a client that never connected, `this.socket`
is `undefined` and the method call throws a `TypeError` *before* the
`destroyed` flag is set. -/
def destroy (st : ClientState) : Except JsError ClientState :=
  match st.socket with
  | none => .error .typeError
  | some _ => .ok { st with destroyed := true }

/-- The `socket.on('close')` listener (lines 105–115): emit `close`, and if
`autoReconnect`, schedule a reconnect after
`++reconnectTries * reconnectInterval * reconnectIntervalMultiplier` ms. -/
def onClose (st : ClientState) (code : Int) : ClientState × List Ev :=
  if st.opts.autoReconnect then
    let tries := st.reconnectTries + 1
    ({ st with reconnectTries := tries },
      [.closeEvent code,
        .reconnectScheduled
          (tries * st.opts.reconnectInterval * st.opts.reconnectIntervalMultiplier)])
  else (st, [.closeEvent code])

/-- The body of the scheduled reconnect timer: `if (!this.destroyed)
this.connect()` — returns whether a reconnect attempt is started. -/
def reconnectTimerFires (st : ClientState) : Bool := !st.destroyed

/-! ## `Client.connect` (lines 147–181) as an event-driven machine

`connect()` is `async`: it creates the socket, registers the listeners,
suspends until the `open` event, then sends the `auth/login` call and
suspends until that call's promise settles, and only then resets
`reconnectTries` and emits `connect`.  The suspensions make it a small
state machine driven by the transport events. -/

inductive ConnPhase where
  | awaitingOpen
  | authing (pid : Nat) (loginId : String)
  | opened
  | failed

structure ConnState where
  client : ClientState
  phase : ConnPhase

/-- The synchronous prefix of `connect()`: re-default falsy `host`/`port`,
acquire a token when none is set (`tok` is the `getServiceToken()` result;
a failure is downgraded to the empty token), create the socket, register
the listeners, and suspend awaiting `open`. -/
def connectStart (st : ClientState) (tok : Except Unit String) : ConnState :=
  let o := st.opts
  let host := if o.host = "" then DEFAULT_HOST else o.host
  let port := if o.port = 0 then DEFAULT_PORT else o.port
  let token :=
    match o.token with
    | some t =>
      if t = "" then (match tok with | .ok s => some s | .error _ => some "") else some t
    | none => match tok with | .ok s => some s | .error _ => some ""
  { client :=
      { st with
        opts := { o with host := host, port := port, token := token }
        socket := some () }
    phase := .awaitingOpen }

/-- The login payload `{ s: this.opts.name }` (a field set to `undefined`
is dropped by `JSON.stringify`). -/
def loginPayload (name : Option String) : JValue :=
  .jobj (match name with | some nm => [("s", .jstr nm)] | none => [])

/-- Transport events driving a connecting client. -/
inductive InEvent where
  | sockOpen
  | message (raw : String)
  | closeEvt (code : Int)

/-- Resumption of `connect()` after a message was dispatched while the
login call's promise `pid` is awaited (`r` is the message listener's
result): a resolved promise resumes `connect()` (reset `reconnectTries`,
emit `connect`), a rejected one makes `connect()` rethrow, a pending one
keeps waiting. -/
def connStepAuth (r : HandleResult) (pid : Nat) (lid : String) :
    ConnState × List Ev :=
  match lookupProm r.state.promises pid with
  | some (.resolved _) =>
    ({ client := { r.state with reconnectTries := 0 }, phase := .opened },
      r.events ++ [.connectEvent])
  | some (.rejected _) => ({ client := r.state, phase := .failed }, r.events)
  | _ => ({ client := r.state, phase := .authing pid lid }, r.events)

/-- The `open` listener part of a step: the awaited `open` fires once, in
the awaiting phase, and issues `this.call('auth/login', {s: name})`. -/
def connStepOpen (cs : ConnState) : ConnState × List Ev :=
  match cs.phase with
  | .awaitingOpen =>
    let r := send cs.client "call" "auth/login"
      (some (loginPayload cs.client.opts.name))
    ({ client := r.state, phase := .authing r.pid r.wire.i }, [.wrote r.wire])
  | _ => (cs, [])

/-- The `message` listener part of a step. -/
def connStepMsg (parse : String → Option JValue) (cs : ConnState)
    (raw : String) : ConnState × List Ev :=
  match cs.phase with
  | .authing pid lid => connStepAuth (onMessage parse cs.client raw) pid lid
  | ph =>
    ({ client := (onMessage parse cs.client raw).state, phase := ph },
      (onMessage parse cs.client raw).events)

/-- One step of the connecting client under a transport event:
  * `open` (awaited once): issue `this.call('auth/login', {s: name})`;
  * `message`: run the message listener — an exception escaping the
    listener leaves the state the listener built (the only throw in
    `handle` happens before any mutation) — then, if the login call's
    promise has settled, resume `connect()`;
  * `close`: run the close listener. -/
def connStep (parse : String → Option JValue) (cs : ConnState) (e : InEvent) :
    ConnState × List Ev :=
  match e with
  | .sockOpen => connStepOpen cs
  | .message raw => connStepMsg parse cs raw
  | .closeEvt code =>
    ({ client := (onClose cs.client code).1, phase := cs.phase },
      (onClose cs.client code).2)

/-- Run a connecting client over a list of transport events, collecting
all emitted events. -/
def runConn (parse : String → Option JValue) (cs : ConnState) :
    List InEvent → ConnState × List Ev
  | [] => (cs, [])
  | e :: es =>
    ((runConn parse (connStep parse cs e).1 es).1,
      (connStep parse cs e).2 ++ (runConn parse (connStep parse cs e).1 es).2)

/-! ## Well-formedness

All promise ids referenced from the registry or the promise store are below
`nextPid` — true of every state reachable from `mkClient`, and exactly what
makes a freshly allocated pid fresh. -/

def wfB (st : ClientState) : Bool :=
  st.handlers.all (fun h =>
    match h.behavior with
    | .oneShot pid => pid < st.nextPid
    | .user _ => true) &&
  st.promises.all (fun kv => kv.1 < st.nextPid)

/-! ## Injectivity of the decimal representation used in correlation ids -/

/-- Decimal digits of `n`, most significant first (fuel-free counterpart of
`Nat.toDigitsCore`). -/
def decDigits (n : Nat) : List Char :=
  if n < 10 then [Nat.digitChar n]
  else decDigits (n / 10) ++ [Nat.digitChar (n % 10)]
termination_by n
decreasing_by
  exact Nat.div_lt_self (by omega) (by omega)

theorem decDigits_of_lt {n : Nat} (h : n < 10) : decDigits n = [Nat.digitChar n] := by
  unfold decDigits
  simp [h]

theorem decDigits_of_ge {n : Nat} (h : ¬ n < 10) :
    decDigits n = decDigits (n / 10) ++ [Nat.digitChar (n % 10)] := by
  conv_lhs => unfold decDigits
  simp [h]

theorem decDigits_ne_nil (n : Nat) : decDigits n ≠ [] := by
  by_cases h : n < 10
  · simp [decDigits_of_lt h]
  · simp [decDigits_of_ge h]

theorem digitChar_inj_lt : ∀ a < 10, ∀ b < 10,
    Nat.digitChar a = Nat.digitChar b → a = b := by decide

theorem toDigitsCore_eq_decDigits :
    ∀ (fuel n : Nat) (ds : List Char), n < fuel →
      Nat.toDigitsCore 10 fuel n ds = decDigits n ++ ds := by
  intro fuel
  induction fuel with
  | zero => intro n ds h; omega
  | succ f ih =>
    intro n ds h
    by_cases h10 : n / 10 = 0
    · have hn : n < 10 := by omega
      have hmod : n % 10 = n := Nat.mod_eq_of_lt hn
      simp [Nat.toDigitsCore, h10, decDigits_of_lt hn, hmod]
    · have hn : ¬ n < 10 := by omega
      have hlt : n / 10 < f := by
        have hds : n / 10 < n := Nat.div_lt_self (by omega) (by omega)
        omega
      simp only [Nat.toDigitsCore, h10, if_false]
      rw [ih (n / 10) _ hlt, decDigits_of_ge hn, List.append_assoc]
      rfl

theorem repr_data_eq (n : Nat) : (Nat.repr n).data = decDigits n := by
  show (List.asString (Nat.toDigits 10 n)).data = decDigits n
  rw [Nat.toDigits, toDigitsCore_eq_decDigits (n + 1) n [] (Nat.lt_succ_self n)]
  simp [List.asString]

theorem decDigits_inj : ∀ m n : Nat, decDigits m = decDigits n → m = n := by
  intro m
  induction m using Nat.strong_induction_on with
  | _ m ih =>
    intro n h
    by_cases hm : m < 10 <;> by_cases hn : n < 10
    · rw [decDigits_of_lt hm, decDigits_of_lt hn] at h
      exact digitChar_inj_lt m hm n hn (List.head_eq_of_cons_eq h)
    · rw [decDigits_of_lt hm, decDigits_of_ge hn] at h
      have := congrArg List.length h
      simp at this
      exact absurd this (decDigits_ne_nil (n / 10))
    · rw [decDigits_of_ge hm, decDigits_of_lt hn] at h
      have := congrArg List.length h
      simp at this
      exact absurd this (decDigits_ne_nil (m / 10))
    · rw [decDigits_of_ge hm, decDigits_of_ge hn] at h
      obtain ⟨h1, h2⟩ := List.append_inj' h (by simp)
      have hdiv : m / 10 = n / 10 :=
        ih (m / 10) (Nat.div_lt_self (by omega) (by omega)) _ h1
      have hmod : m % 10 = n % 10 :=
        digitChar_inj_lt (m % 10) (Nat.mod_lt _ (by omega)) (n % 10)
          (Nat.mod_lt _ (by omega)) (List.head_eq_of_cons_eq h2)
      omega

theorem corrId_inj {id : String} {a b : Nat} (h : corrId id a = corrId id b) :
    a = b := by
  apply decDigits_inj
  rw [← repr_data_eq, ← repr_data_eq]
  have hd := congrArg String.data h
  simpa [corrId, String.data_append] using hd

/-! ## Helper lemmas: promise store -/

theorem lookupProm_settleList_self :
    ∀ (l : List (Nat × PromiseState)) (pid : Nat) (o : PromiseState),
      lookupProm l pid = some .pending →
      lookupProm (settleList l pid o) pid = some o := by
  intro l pid o h
  induction l with
  | nil => simp [lookupProm] at h
  | cons kv t ih =>
    obtain ⟨k, v⟩ := kv
    by_cases hk : k = pid
    · subst hk
      simp [lookupProm] at h
      subst h
      simp [settleList, lookupProm]
    · simp [lookupProm, hk] at h
      simp [settleList, hk, lookupProm, ih h]

theorem lookupProm_settleList_other :
    ∀ (l : List (Nat × PromiseState)) (pid q : Nat) (o : PromiseState),
      q ≠ pid →
      lookupProm (settleList l pid o) q = lookupProm l q := by
  intro l pid q o hne
  induction l with
  | nil => simp [settleList]
  | cons kv t ih =>
    obtain ⟨k, v⟩ := kv
    by_cases hk : k = pid
    · subst hk
      have hkq : k ≠ q := fun h => hne h.symm
      cases v <;> simp [settleList, lookupProm, hkq]
    · by_cases hq : k = q
      · subst hq
        simp [settleList, hk, lookupProm]
      · simp [settleList, hk, lookupProm, hq, ih]

theorem lookupProm_settleList_changed :
    ∀ (l : List (Nat × PromiseState)) (pid q : Nat) (o : PromiseState),
      lookupProm (settleList l pid o) q ≠ lookupProm l q → q = pid := by
  intro l pid q o h
  by_contra hne
  exact h (lookupProm_settleList_other l pid q o hne)

theorem lookupProm_append_fresh :
    ∀ (l : List (Nat × PromiseState)) (pid : Nat) (v : PromiseState),
      (∀ kv ∈ l, kv.1 ≠ pid) →
      lookupProm (l ++ [(pid, v)]) pid = some v := by
  intro l pid v h
  induction l with
  | nil => simp [lookupProm]
  | cons kv t ih =>
    obtain ⟨k, w⟩ := kv
    have hk : k ≠ pid := h (k, w) (by simp)
    simp only [List.cons_append, lookupProm, hk, if_false]
    exact ih fun kv hm => h kv (by simp [hm])

/-! ## Helper lemmas: handler lookup -/

theorem firstIdx_spec :
    ∀ (l : List HandlerEntry) (p : HandlerEntry → Bool) (i : Nat),
      firstIdx p l = some i → ∃ h, l[i]? = some h ∧ p h = true := by
  intro l
  induction l with
  | nil => intro p i h; simp [firstIdx] at h
  | cons x t ih =>
    intro p i h
    by_cases hx : p x
    · simp [firstIdx, hx] at h
      subst h
      exact ⟨x, by simp, hx⟩
    · simp [firstIdx, hx] at h
      obtain ⟨j, hj, rfl⟩ := h
      obtain ⟨e, he, hpe⟩ := ih p j hj
      exact ⟨e, by simpa using he, hpe⟩

theorem firstIdx_none :
    ∀ (l : List HandlerEntry) (p : HandlerEntry → Bool),
      firstIdx p l = none → ∀ h ∈ l, p h = false := by
  intro l
  induction l with
  | nil => intro p _ h hm; simp at hm
  | cons x t ih =>
    intro p hn h hm
    by_cases hx : p x
    · simp [firstIdx, hx] at hn
    · simp [firstIdx, hx] at hn
      rcases List.mem_cons.mp hm with rfl | hm'
      · simpa using hx
      · exact ih p hn h hm'

theorem firstIdx_all_false :
    ∀ (l : List HandlerEntry) (p : HandlerEntry → Bool),
      (∀ h ∈ l, p h = false) → firstIdx p l = none := by
  intro l
  induction l with
  | nil => intro p _; rfl
  | cons x t ih =>
    intro p hall
    have hx : p x = false := hall x (by simp)
    simp [firstIdx, hx]
    exact ih p fun h hm => hall h (by simp [hm])

theorem firstIdx_append_fresh :
    ∀ (l : List HandlerEntry) (p : HandlerEntry → Bool) (e : HandlerEntry),
      (∀ h ∈ l, p h = false) → p e = true →
      firstIdx p (l ++ [e]) = some l.length := by
  intro l
  induction l with
  | nil => intro p e _ hpe; simp [firstIdx, hpe]
  | cons x t ih =>
    intro p e hall hpe
    have hx : p x = false := hall x (by simp)
    have ht := ih p e (fun h hm => hall h (by simp [hm])) hpe
    simp [firstIdx, hx, ht]

theorem mem_of_mem_eraseIdx {l : List HandlerEntry} {i : Nat} {h : HandlerEntry}
    (hm : h ∈ l.eraseIdx i) : h ∈ l :=
  (List.eraseIdx_sublist l i).subset hm


/-! ## Structural lemmas about dispatch -/

theorem settleList_keys :
    ∀ (l : List (Nat × PromiseState)) (pid : Nat) (o : PromiseState),
      (settleList l pid o).map Prod.fst = l.map Prod.fst := by
  intro l pid o
  induction l with
  | nil => rfl
  | cons kv t ih =>
    obtain ⟨k, v⟩ := kv
    by_cases hk : k = pid
    · subst hk
      cases v <;> simp [settleList]
    · simp [settleList, hk, ih]

theorem lookupProm_isSome_of_keys_eq :
    ∀ (l l' : List (Nat × PromiseState)) (q : Nat),
      l.map Prod.fst = l'.map Prod.fst →
      (lookupProm l q).isSome = (lookupProm l' q).isSome := by
  intro l
  induction l with
  | nil => intro l' q h; cases l' <;> simp_all [lookupProm]
  | cons kv t ih =>
    intro l' q h
    obtain ⟨k, v⟩ := kv
    cases l' with
    | nil => simp at h
    | cons kv' t' =>
      obtain ⟨k', v'⟩ := kv'
      simp at h
      obtain ⟨hk, ht⟩ := h
      subst hk
      by_cases hq : k = q <;> simp [lookupProm, hq, ih t' q ht]

/-! Equation lemmas for `invokeHandler`. -/

theorem invoke_user {st : ClientState} {h : HandlerEntry} {p : PacketW} {tag : Nat}
    (hb : h.behavior = .user tag) :
    invokeHandler st h p = ⟨st, [.invokedUser tag p], none⟩ := by
  unfold invokeHandler
  rw [hb]

theorem invoke_oneShot_err {st : ClientState} {h : HandlerEntry} {p : PacketW}
    {pid : Nat} {e : JsError}
    (hb : h.behavior = .oneShot pid) (hcs : callbackSettle p.d = .error e) :
    invokeHandler st h p = ⟨st, [], some e⟩ := by
  unfold invokeHandler
  rw [hb, hcs]

theorem invoke_oneShot_ok {st : ClientState} {h : HandlerEntry} {p : PacketW}
    {pid : Nat} {o : PromiseState}
    (hb : h.behavior = .oneShot pid) (hcs : callbackSettle p.d = .ok o) :
    invokeHandler st h p = ⟨settle st pid o, [], none⟩ := by
  unfold invokeHandler
  rw [hb, hcs]

theorem invoke_state (st : ClientState) (h : HandlerEntry) (p : PacketW) :
    (invokeHandler st h p).state = st ∨
    ∃ pid o, (invokeHandler st h p).state = settle st pid o := by
  rcases hb : h.behavior with pid | tag
  · rcases hcs : callbackSettle p.d with e | o
    · left; rw [invoke_oneShot_err hb hcs]
    · right; exact ⟨pid, o, by rw [invoke_oneShot_ok hb hcs]⟩
  · left; rw [invoke_user hb]

theorem invoke_handlers (st : ClientState) (h : HandlerEntry) (p : PacketW) :
    (invokeHandler st h p).state.handlers = st.handlers := by
  rcases invoke_state st h p with h1 | ⟨pid, o, h1⟩ <;> rw [h1] <;> rfl

theorem invoke_promKeys (st : ClientState) (h : HandlerEntry) (p : PacketW) :
    (invokeHandler st h p).state.promises.map Prod.fst =
      st.promises.map Prod.fst := by
  rcases invoke_state st h p with h1 | ⟨pid, o, h1⟩ <;> rw [h1]
  exact settleList_keys st.promises pid o

theorem invoke_scalars (st : ClientState) (h : HandlerEntry) (p : PacketW) :
    (invokeHandler st h p).state.id = st.id ∧
    (invokeHandler st h p).state.callbacks = st.callbacks ∧
    (invokeHandler st h p).state.nextPid = st.nextPid ∧
    (invokeHandler st h p).state.opts = st.opts ∧
    (invokeHandler st h p).state.socket = st.socket ∧
    (invokeHandler st h p).state.destroyed = st.destroyed ∧
    (invokeHandler st h p).state.reconnectTries = st.reconnectTries := by
  rcases invoke_state st h p with h1 | ⟨pid, o, h1⟩ <;> rw [h1] <;>
    exact ⟨rfl, rfl, rfl, rfl, rfl, rfl, rfl⟩

theorem invoke_events (st : ClientState) (h : HandlerEntry) (p : PacketW) :
    (invokeHandler st h p).events = [] ∨
    ∃ tag, (invokeHandler st h p).events = [.invokedUser tag p] := by
  rcases hb : h.behavior with pid | tag
  · rcases hcs : callbackSettle p.d with e | o
    · left; rw [invoke_oneShot_err hb hcs]
    · left; rw [invoke_oneShot_ok hb hcs]
  · right; exact ⟨tag, by rw [invoke_user hb]⟩

/-! Equation lemmas for `handle`. -/

theorem handle_cb_noMatch {st : ClientState} {p : PacketW}
    (ht : jsEqStr p.t "callback" = true)
    (hidx : firstIdx (callbackMatches p.i) st.handlers = none) :
    handle st p = ⟨st, [.errorEvent "Invalid packet"], none⟩ := by
  unfold handle
  rw [if_pos ht, hidx]

theorem handle_cb_thrown {st : ClientState} {p : PacketW} {idx : Nat}
    {h : HandlerEntry} {e : JsError}
    (ht : jsEqStr p.t "callback" = true)
    (hidx : firstIdx (callbackMatches p.i) st.handlers = some idx)
    (hget : st.handlers[idx]? = some h)
    (hth : (invokeHandler st h p).thrown = some e) :
    handle st p = ⟨(invokeHandler st h p).state, (invokeHandler st h p).events, some e⟩ := by
  unfold handle
  rw [if_pos ht, hidx]
  simp only [hget, hth]

theorem handle_cb_ok {st : ClientState} {p : PacketW} {idx : Nat}
    {h : HandlerEntry}
    (ht : jsEqStr p.t "callback" = true)
    (hidx : firstIdx (callbackMatches p.i) st.handlers = some idx)
    (hget : st.handlers[idx]? = some h)
    (hth : (invokeHandler st h p).thrown = none) :
    handle st p =
      ⟨{ (invokeHandler st h p).state with
          handlers := (invokeHandler st h p).state.handlers.eraseIdx idx },
        (invokeHandler st h p).events, none⟩ := by
  unfold handle
  rw [if_pos ht, hidx]
  simp only [hget, hth]

theorem handle_ncb_noMatch {st : ClientState} {p : PacketW}
    (ht : jsEqStr p.t "callback" = false)
    (hf : st.handlers.find? (handlerMatches p.n p.t) = none) :
    handle st p = ⟨st, [.errorEvent "Invalid packet"], none⟩ := by
  unfold handle
  rw [if_neg (by simp [ht]), hf]

theorem handle_ncb_found {st : ClientState} {p : PacketW} {h : HandlerEntry}
    (ht : jsEqStr p.t "callback" = false)
    (hf : st.handlers.find? (handlerMatches p.n p.t) = some h) :
    handle st p = invokeHandler st h p := by
  unfold handle
  rw [if_neg (by simp [ht]), hf]

/-- Every possible shape of a `handle` run (used for the preservation
lemmas below). -/
theorem handle_state_cases (st : ClientState) (p : PacketW) :
    (handle st p).state = st ∨
    (∃ h, h ∈ st.handlers ∧ (handle st p).state = (invokeHandler st h p).state) ∨
    (∃ h idx, h ∈ st.handlers ∧ (handle st p).state =
      { (invokeHandler st h p).state with
        handlers := (invokeHandler st h p).state.handlers.eraseIdx idx }) := by
  by_cases ht : jsEqStr p.t "callback"
  · rcases hidx : firstIdx (callbackMatches p.i) st.handlers with _ | idx
    · rw [handle_cb_noMatch ht hidx]; left; rfl
    · rcases hget : st.handlers[idx]? with _ | h
      · unfold handle
        rw [if_pos ht, hidx]
        simp only [hget]
        exact Or.inl trivial
      · have hmem : h ∈ st.handlers := by
          have := List.getElem?_eq_some_iff.mp hget
          obtain ⟨hlt, hEq⟩ := this
          exact hEq ▸ List.getElem_mem hlt
        rcases hth : (invokeHandler st h p).thrown with _ | e
        · rw [handle_cb_ok ht hidx hget hth]
          right; right; exact ⟨h, idx, hmem, rfl⟩
        · rw [handle_cb_thrown ht hidx hget hth]
          right; left; exact ⟨h, hmem, rfl⟩
  · have ht' : jsEqStr p.t "callback" = false := by simpa using ht
    rcases hf : st.handlers.find? (handlerMatches p.n p.t) with _ | h
    · rw [handle_ncb_noMatch ht' hf]; left; rfl
    · rw [handle_ncb_found ht' hf]
      right; left; exact ⟨h, List.mem_of_find?_eq_some hf, rfl⟩

theorem handle_handlers_subset (st : ClientState) (p : PacketW) :
    ∀ h ∈ (handle st p).state.handlers, h ∈ st.handlers := by
  rcases handle_state_cases st p with h1 | ⟨h, _, h1⟩ | ⟨h, idx, _, h1⟩ <;> rw [h1]
  · exact fun _ hm => hm
  · rw [invoke_handlers]; exact fun _ hm => hm
  · intro x hm
    simp only at hm
    rw [invoke_handlers] at hm
    exact mem_of_mem_eraseIdx hm

theorem handle_promKeys (st : ClientState) (p : PacketW) :
    (handle st p).state.promises.map Prod.fst = st.promises.map Prod.fst := by
  rcases handle_state_cases st p with h1 | ⟨h, _, h1⟩ | ⟨h, idx, _, h1⟩ <;> rw [h1]
  · exact invoke_promKeys st h p
  · exact invoke_promKeys st h p

theorem handle_scalars (st : ClientState) (p : PacketW) :
    (handle st p).state.id = st.id ∧
    (handle st p).state.callbacks = st.callbacks ∧
    (handle st p).state.nextPid = st.nextPid ∧
    (handle st p).state.opts = st.opts ∧
    (handle st p).state.socket = st.socket ∧
    (handle st p).state.destroyed = st.destroyed ∧
    (handle st p).state.reconnectTries = st.reconnectTries := by
  rcases handle_state_cases st p with h1 | ⟨h, _, h1⟩ | ⟨h, idx, _, h1⟩ <;> rw [h1]
  · exact ⟨rfl, rfl, rfl, rfl, rfl, rfl, rfl⟩
  · exact invoke_scalars st h p
  · have := invoke_scalars st h p
    exact ⟨this.1, this.2.1, this.2.2.1, this.2.2.2.1, this.2.2.2.2.1,
      this.2.2.2.2.2.1, this.2.2.2.2.2.2⟩

theorem handle_events_mem (st : ClientState) (p : PacketW) :
    ∀ e ∈ (handle st p).events,
      e = .errorEvent "Invalid packet" ∨ ∃ tag, e = .invokedUser tag p := by
  have hinv : ∀ h, ∀ e ∈ (invokeHandler st h p).events,
      e = Ev.errorEvent "Invalid packet" ∨ ∃ tag, e = Ev.invokedUser tag p := by
    intro h e hm
    rcases invoke_events st h p with h1 | ⟨tag, h1⟩ <;> rw [h1] at hm
    · simp at hm
    · simp at hm
      exact Or.inr ⟨tag, hm⟩
  by_cases ht : jsEqStr p.t "callback"
  · rcases hidx : firstIdx (callbackMatches p.i) st.handlers with _ | idx
    · rw [handle_cb_noMatch ht hidx]
      intro e hm; simp at hm; exact Or.inl hm
    · rcases hget : st.handlers[idx]? with _ | h
      · unfold handle
        rw [if_pos ht, hidx]
        simp only [hget]
        intro e hm; simp at hm; exact Or.inl hm
      · rcases hth : (invokeHandler st h p).thrown with _ | e
        · rw [handle_cb_ok ht hidx hget hth]; exact hinv h
        · rw [handle_cb_thrown ht hidx hget hth]; exact hinv h
  · have ht' : jsEqStr p.t "callback" = false := by simpa using ht
    rcases hf : st.handlers.find? (handlerMatches p.n p.t) with _ | h
    · rw [handle_ncb_noMatch ht' hf]
      intro e hm; simp at hm; exact Or.inl hm
    · rw [handle_ncb_found ht' hf]; exact hinv h

theorem onMessage_cases (parse : String → Option JValue) (st : ClientState)
    (raw : String) :
    onMessage parse st raw = ⟨st, [], none⟩ ∨
    ∃ v, parse raw = some v ∧ truthy v = true ∧
      onMessage parse st raw = handle st (toPacket v) := by
  unfold onMessage parseJSON
  cases hp : parse raw with
  | none => left; simp [truthy]
  | some v =>
    by_cases ht : truthy v
    · right; exact ⟨v, rfl, ht, by simp [ht]⟩
    · left; simp [ht]

/-! ## Claim theorems -/

/-- C6 counterexample: on a freshly constructed client (`connect()` never
called) `destroy()` does not succeed — `this.socket` is `undefined`, so
`this.socket.close()` throws a `TypeError` (and `destroyed` is never set),
refuting "from any state … destroy() … succeeds without raising". -/
theorem destroy_fresh_counterexample :
    destroy (mkClient {} "u-6") = .error .typeError := rfl

/-- C6 (amended): once a transport exists (`connect()` was called),
`destroy()` force-closes it and sets `destroyed := true` without raising,
and afterwards a pending reconnect timer does not start a new connection
attempt; on a freshly constructed session, however, `destroy()` throws a
`TypeError` and leaves the state unchanged. -/
theorem destroy_with_socket (st : ClientState) (h : st.socket = some ()) :
    destroy st = .ok { st with destroyed := true } ∧
    (∀ st', destroy st = .ok st' → reconnectTimerFires st' = false) := by
  have h1 : destroy st = .ok { st with destroyed := true } := by
    unfold destroy
    rw [h]
  refine ⟨h1, ?_⟩
  intro st' h2
  rw [h1] at h2
  injection h2 with h3
  rw [← h3]
  rfl

theorem destroy_with_socket_witness :
    (connectStart (mkClient {} "u-6b") (Except.ok "tok")).client.socket = some () ∧
    destroy (connectStart (mkClient {} "u-6b") (Except.ok "tok")).client =
      .ok { (connectStart (mkClient {} "u-6b") (Except.ok "tok")).client with
              destroyed := true } :=
  ⟨rfl, (destroy_with_socket _ rfl).1⟩

/-- C7: an inbound frame on which `JSON.parse` throws is dropped silently —
no event is emitted, nothing is invoked or thrown, and the client state
(handler registry and pending promises included) is left unchanged. -/
theorem malformed_frame_dropped (parse : String → Option JValue)
    (st : ClientState) (raw : String) (h : parse raw = none) :
    onMessage parse st raw = ⟨st, [], none⟩ := by
  unfold onMessage parseJSON
  rw [h]
  rfl

theorem malformed_frame_dropped_witness :
    (fun _ => (none : Option JValue)) "not json" = none ∧
    onMessage (fun _ => none) (mkClient {} "u-7") "not json" =
      ⟨mkClient {} "u-7", [], none⟩ :=
  ⟨rfl, malformed_frame_dropped _ _ _ rfl⟩

/-- No handler entry matches the inbound envelope (the lookup that
`Client.handle` would perform comes up empty). -/
def noHandlerFor (st : ClientState) (p : PacketW) : Bool :=
  if jsEqStr p.t "callback" then
    (firstIdx (callbackMatches p.i) st.handlers).isNone
  else
    (st.handlers.find? (handlerMatches p.n p.t)).isNone

/-- C8: a well-formed envelope with no matching handler emits the
routing-failure `error` event (`Invalid packet`), invokes nothing, throws
nothing, and leaves the state — registry included — unchanged. -/
theorem routing_error_on_no_match (st : ClientState) (p : PacketW)
    (h : noHandlerFor st p = true) :
    handle st p = ⟨st, [.errorEvent "Invalid packet"], none⟩ := by
  unfold noHandlerFor at h
  by_cases ht : jsEqStr p.t "callback"
  · rw [if_pos ht] at h
    rcases hidx : firstIdx (callbackMatches p.i) st.handlers with _ | idx
    · exact handle_cb_noMatch ht hidx
    · rw [hidx] at h
      simp at h
  · have ht' : jsEqStr p.t "callback" = false := by simpa using ht
    rw [if_neg (by simp [ht'])] at h
    rcases hf : st.handlers.find? (handlerMatches p.n p.t) with _ | h2
    · exact handle_ncb_noMatch ht' hf
    · rw [hf] at h
      simp at h

theorem routing_error_on_no_match_witness :
    noHandlerFor (mkClient {} "u-8")
      { n := some (.jstr "ping"), t := some (.jstr "call") } = true ∧
    handle (mkClient {} "u-8") { n := some (.jstr "ping"), t := some (.jstr "call") } =
      ⟨mkClient {} "u-8", [.errorEvent "Invalid packet"], none⟩ :=
  ⟨rfl, routing_error_on_no_match _ _ rfl⟩

/-- C9: a callback envelope that reaches a pending one-shot handler but
carries no payload (`d` absent or `null`) makes the handler throw a
`TypeError` while reading `data.status`; the exception escapes `handle`
before the splice, so the promise stays pending and the one-shot entry
stays in the registry (the state is unchanged). -/
theorem null_payload_throws (st : ClientState) (p : PacketW) (idx pid : Nat)
    (h : HandlerEntry)
    (ht : jsEqStr p.t "callback" = true)
    (hidx : firstIdx (callbackMatches p.i) st.handlers = some idx)
    (hget : st.handlers[idx]? = some h)
    (hbeh : h.behavior = .oneShot pid)
    (hd : p.d = none ∨ p.d = some .jnull) :
    handle st p = ⟨st, [], some .typeError⟩ := by
  have hcs : callbackSettle p.d = .error .typeError := by
    rcases hd with h1 | h1 <;> rw [h1] <;> rfl
  have hiv := @invoke_oneShot_err st h p pid _ hbeh hcs
  have hth : (invokeHandler st h p).thrown = some .typeError := by rw [hiv]
  rw [handle_cb_thrown ht hidx hget hth, hiv]

def c9Client : ClientState := (send (mkClient {} "u-9") "call" "math/add" none).state

def c9Packet : PacketW := { t := some (.jstr "callback"), i := some (.jstr "u-9-0") }

theorem null_payload_throws_witness :
    handle c9Client c9Packet = ⟨c9Client, [], some .typeError⟩ :=
  null_payload_throws c9Client c9Packet 0 0
    ⟨corrId "u-9" 0, "callback", .oneShot 0⟩ rfl (by decide) (by decide) rfl
    (Or.inl rfl)

/-- C10: removal is keyed on the *inbound envelope's* kind, not on how the
entry was registered: (a) a durable entry registered explicitly via
`registerHandler(name, 'callback', fn)` is spliced out after it is matched
by a callback-kind dispatch — it does not persist; (b) a dispatch of any
non-callback kind never removes the matched entry. -/
theorem removal_keyed_on_inbound_kind :
    (∀ (st : ClientState) (name : String) (tag : Nat) (p : PacketW),
      jsEqStr p.t "callback" = true →
      jsToString p.i = name →
      (∀ h ∈ st.handlers, callbackMatches p.i h = false) →
      (handle (registerHandler st name "callback" tag) p).state.handlers = st.handlers ∧
      (handle (registerHandler st name "callback" tag) p).events = [.invokedUser tag p] ∧
      (handle (registerHandler st name "callback" tag) p).thrown = none) ∧
    (∀ (st : ClientState) (p : PacketW), jsEqStr p.t "callback" = false →
      (handle st p).state.handlers = st.handlers) := by
  constructor
  · intro st name tag p ht hname hnone
    have hpe : callbackMatches p.i ⟨name, "callback", .user tag⟩ = true := by
      simp [callbackMatches, hname]
    have hidx : firstIdx (callbackMatches p.i)
        (registerHandler st name "callback" tag).handlers = some st.handlers.length :=
      firstIdx_append_fresh st.handlers _ _ hnone hpe
    have hget : (registerHandler st name "callback" tag).handlers[st.handlers.length]? =
        some ⟨name, "callback", .user tag⟩ :=
      List.getElem?_concat_length _ _
    have hiv := @invoke_user (registerHandler st name "callback" tag)
      (⟨name, "callback", .user tag⟩ : HandlerEntry) p tag rfl
    have hth : (invokeHandler (registerHandler st name "callback" tag)
        ⟨name, "callback", .user tag⟩ p).thrown = none := by rw [hiv]
    rw [handle_cb_ok ht hidx hget hth, hiv]
    refine ⟨?_, rfl, rfl⟩
    show (st.handlers ++ [(⟨name, "callback", .user tag⟩ : HandlerEntry)]).eraseIdx
        st.handlers.length = st.handlers
    rw [List.eraseIdx_append_of_length_le (Nat.le_refl _)]
    simp
  · intro st p ht
    rcases hf : st.handlers.find? (handlerMatches p.n p.t) with _ | h
    · rw [handle_ncb_noMatch ht hf]
    · rw [handle_ncb_found ht hf]
      exact invoke_handlers st h p

theorem removal_keyed_on_inbound_kind_witness :
    (handle (registerHandler (mkClient {} "u-10") "dur" "callback" 7)
        { t := some (.jstr "callback"), i := some (.jstr "dur") }).state.handlers =
      (mkClient {} "u-10").handlers ∧
    (handle (mkClient {} "u-10")
        { t := some (.jstr "call"), n := some (.jstr "x") }).state.handlers =
      (mkClient {} "u-10").handlers :=
  ⟨(removal_keyed_on_inbound_kind.1 (mkClient {} "u-10") "dur" 7
      { t := some (.jstr "callback"), i := some (.jstr "dur") } rfl rfl (by decide)).1,
   removal_keyed_on_inbound_kind.2 (mkClient {} "u-10")
      { t := some (.jstr "call"), n := some (.jstr "x") } rfl⟩

/-! ## C1: settlement of a call's promise by its callback -/

/-- A callback dispatch that reaches a one-shot handler and settles with
outcome `o` removes the entry and settles the promise. -/
theorem handle_oneShot_eq {st : ClientState} {p : PacketW} {idx pid : Nat}
    {h : HandlerEntry} {o : PromiseState}
    (ht : jsEqStr p.t "callback" = true)
    (hidx : firstIdx (callbackMatches p.i) st.handlers = some idx)
    (hget : st.handlers[idx]? = some h)
    (hbeh : h.behavior = .oneShot pid)
    (hok : callbackSettle p.d = .ok o) :
    handle st p =
      ⟨{ settle st pid o with handlers := st.handlers.eraseIdx idx }, [], none⟩ := by
  have hiv := @invoke_oneShot_ok st h p pid o hbeh hok
  have hth : (invokeHandler st h p).thrown = none := by rw [hiv]
  rw [handle_cb_ok ht hidx hget hth, hiv]
  rfl

theorem callbackSettle_obj (fs : List (String × JValue)) :
    callbackSettle (some (.jobj fs)) =
      match (JValue.jobj fs).getProp "status" with
      | some s =>
        if jsEqNum s 200 then .ok (.resolved (some (.jobj fs)))
        else .ok (.rejected ("Response code: " ++ jsToStr s))
      | none => .ok (.resolved (some (.jobj fs))) := rfl

def c1Payload : JValue := .jobj [("status", .jnum 200), ("result", .jnum 3)]

def c1Client : ClientState :=
  (callSend (mkClient {} "u-1") "math/add"
    (some (.jobj [("a", .jnum 1), ("b", .jnum 2)]))).state

def c1Reply : PacketW :=
  { t := some (.jstr "callback"), i := some (.jstr "u-1-0"), d := some c1Payload }

/-- C1 counterexample: after `call('math/add', {a:1,b:2})`, the reply
envelope `{t:'callback', i:<id>, d:{status:200, result:3}}` resolves the
promise with the *whole* payload `{status:200, result:3}` (the code runs
`resolve(packet.data.d)`), not with `{result:3}` as the claim states. -/
theorem call_success_value_counterexample :
    lookupProm (handle c1Client c1Reply).state.promises 0 =
      some (.resolved (some c1Payload)) ∧
    c1Payload ≠ .jobj [("result", .jnum 3)] := by
  refine ⟨rfl, ?_⟩
  intro hEq
  have hlen := congrArg
    (fun v => match v with | JValue.jobj fs => fs.length | _ => 0) hEq
  simp [c1Payload] at hlen

/-- C1 (amended): when the correlated callback envelope reaches the pending
call's one-shot handler, a payload with numeric `status = 200` settles the
promise as success with the *raw* payload `d` (still containing `status`),
any other `status` value settles it as failure carrying that status, and a
payload without a `status` field settles success with the raw payload. -/
theorem call_reply_settlement (st : ClientState) (p : PacketW) (idx pid : Nat)
    (h : HandlerEntry)
    (ht : jsEqStr p.t "callback" = true)
    (hidx : firstIdx (callbackMatches p.i) st.handlers = some idx)
    (hget : st.handlers[idx]? = some h)
    (hbeh : h.behavior = .oneShot pid)
    (hpend : lookupProm st.promises pid = some .pending) :
    ∀ v, p.d = some v →
      ((v.getProp "status" = some (.jnum 200) →
        lookupProm (handle st p).state.promises pid = some (.resolved p.d)) ∧
       (∀ s, v.getProp "status" = some s → jsEqNum s 200 = false →
        lookupProm (handle st p).state.promises pid =
          some (.rejected ("Response code: " ++ jsToStr s))) ∧
       (v ≠ .jnull → v.getProp "status" = none →
        lookupProm (handle st p).state.promises pid = some (.resolved p.d))) := by
  intro v hdv
  have key : ∀ o, callbackSettle p.d = .ok o →
      lookupProm (handle st p).state.promises pid = some o := by
    intro o hok
    rw [handle_oneShot_eq ht hidx hget hbeh hok]
    exact lookupProm_settleList_self st.promises pid o hpend
  refine ⟨?_, ?_, ?_⟩
  · intro hg
    apply key
    rw [hdv]
    cases v with
    | jobj fs =>
      rw [callbackSettle_obj, hg]
      rfl
    | _ => simp [JValue.getProp] at hg
  · intro s hg hne
    apply key
    rw [hdv]
    cases v with
    | jobj fs =>
      rw [callbackSettle_obj, hg]
      simp [hne]
    | _ => simp [JValue.getProp] at hg
  · intro hvn hg
    apply key
    rw [hdv]
    cases v with
    | jnull => exact absurd rfl hvn
    | jobj fs => rw [callbackSettle_obj, hg]
    | _ => rfl

theorem call_reply_settlement_witness :
    lookupProm (handle c1Client c1Reply).state.promises 0 =
      some (.resolved (some c1Payload)) :=
  (call_reply_settlement c1Client c1Reply 0 0
      ⟨corrId "u-1" 0, "callback", .oneShot 0⟩ rfl (by decide) (by decide) rfl rfl
      c1Payload rfl).1 rfl

/-! ## C2: one-shot handler removal -/

def c2Client : ClientState := (callSend (mkClient {} "u-2") "svc/m" none).state

def c2ReplyNoPayload : PacketW :=
  { t := some (.jstr "callback"), i := some (.jstr "u-2-0") }

def c2GoodReply : PacketW :=
  { t := some (.jstr "callback"), i := some (.jstr "u-2-0"), d := some (.jobj []) }

/-- C2 counterexample: a correlated callback without a payload dispatches
the one-shot handler (which throws a `TypeError` reading `data.status`),
and because `handlers.splice` runs only after `handler.handler(packet)`
returns, the entry is *not* removed — refuting "removed immediately after
its first dispatch, regardless of the outcome of the invocation (including
the handler throwing)". -/
theorem oneshot_removal_counterexample :
    handle c2Client c2ReplyNoPayload = ⟨c2Client, [], some .typeError⟩ ∧
    c2Client.handlers.length = 1 :=
  ⟨rfl, rfl⟩

/-- C2 (amended): a one-shot handler entry is removed immediately after a
dispatch whose invocation returns normally (and a second identical inbound
callback is then treated as a routing error, not a second invocation); if
the invocation throws, the entry stays in the registry. -/
theorem oneshot_removed_after_normal_dispatch (st : ClientState) (p : PacketW)
    (idx pid : Nat) (h : HandlerEntry) (o : PromiseState)
    (ht : jsEqStr p.t "callback" = true)
    (hidx : firstIdx (callbackMatches p.i) st.handlers = some idx)
    (hget : st.handlers[idx]? = some h)
    (hbeh : h.behavior = .oneShot pid)
    (hok : callbackSettle p.d = .ok o) :
    (handle st p).thrown = none ∧
    (handle st p).state.handlers = st.handlers.eraseIdx idx ∧
    ((∀ h2 ∈ st.handlers.eraseIdx idx, callbackMatches p.i h2 = false) →
      handle (handle st p).state p =
        ⟨(handle st p).state, [.errorEvent "Invalid packet"], none⟩) := by
  have heq := handle_oneShot_eq ht hidx hget hbeh hok
  rw [heq]
  refine ⟨rfl, rfl, ?_⟩
  intro hall
  exact handle_cb_noMatch ht (firstIdx_all_false _ _ hall)

theorem oneshot_removed_after_normal_dispatch_witness :
    (handle c2Client c2GoodReply).thrown = none ∧
    (handle c2Client c2GoodReply).state.handlers = c2Client.handlers.eraseIdx 0 ∧
    handle (handle c2Client c2GoodReply).state c2GoodReply =
      ⟨(handle c2Client c2GoodReply).state, [.errorEvent "Invalid packet"], none⟩ := by
  have h := oneshot_removed_after_normal_dispatch c2Client c2GoodReply 0 0
    ⟨corrId "u-2" 0, "callback", .oneShot 0⟩ (.resolved (some (.jobj []))) rfl
    (by decide) (by decide) rfl rfl
  exact ⟨h.1, h.2.1, h.2.2 (by decide)⟩

/-! ## C3: correlation-id uniqueness and exact resolution -/

/-- The correlation ids of the one-shot (pending-call) entries currently in
the registry. -/
def oneShotIds (st : ClientState) : List String :=
  st.handlers.filterMap (fun h =>
    match h.behavior with
    | .oneShot _ => some h.name
    | .user _ => none)

/-- The pending-call ids are pairwise distinct, and each is
`{sessionId}-{c}` for some already-consumed counter value `c`. -/
def idsOK (st : ClientState) : Prop :=
  (oneShotIds st).Nodup ∧
  ∀ nm ∈ oneShotIds st, ∃ c < st.callbacks, nm = corrId st.id c

theorem oneShotIds_send (st : ClientState) (t path : String) (d : Option JValue) :
    oneShotIds (send st t path d).state =
      oneShotIds st ++ [corrId st.id st.callbacks] := by
  simp [oneShotIds, send, List.filterMap_append]

theorem handle_handlers_sublist (st : ClientState) (p : PacketW) :
    List.Sublist (handle st p).state.handlers st.handlers := by
  rcases handle_state_cases st p with h1 | ⟨h, _, h1⟩ | ⟨h, idx, _, h1⟩
  · rw [h1]
  · rw [h1, invoke_handlers]
  · rw [h1]
    show List.Sublist ((invokeHandler st h p).state.handlers.eraseIdx idx) _
    rw [invoke_handlers]
    exact List.eraseIdx_sublist _ _

/-- C3: (i) a fresh client satisfies the id invariant; (ii) `send`
preserves it — the freshly allocated id `{sessionId}-{callbacks++}` cannot
collide with any id still awaiting a reply, since those used strictly
smaller counter values and the decimal representation is injective;
(iii) dispatch and (iv) explicit registration preserve it; (v) a callback
whose id reaches the one-shot entry of a pending call settles exactly that
call's promise and leaves every other promise unchanged. -/
theorem correlation_ids_unique :
    (∀ opts uuid, idsOK (mkClient opts uuid)) ∧
    (∀ st t path d, idsOK st → idsOK (send st t path d).state) ∧
    (∀ st p, idsOK st → idsOK (handle st p).state) ∧
    (∀ st name type tag, idsOK st → idsOK (registerHandler st name type tag)) ∧
    (∀ (st : ClientState) (p : PacketW) (idx pid : Nat) (h : HandlerEntry)
       (o : PromiseState),
      jsEqStr p.t "callback" = true →
      firstIdx (callbackMatches p.i) st.handlers = some idx →
      st.handlers[idx]? = some h →
      h.behavior = .oneShot pid →
      lookupProm st.promises pid = some .pending →
      callbackSettle p.d = .ok o →
      lookupProm (handle st p).state.promises pid = some o ∧
      ∀ q, q ≠ pid →
        lookupProm (handle st p).state.promises q = lookupProm st.promises q) := by
  refine ⟨?_, ?_, ?_, ?_, ?_⟩
  · intro opts uuid
    exact ⟨by simp [oneShotIds, mkClient], by simp [oneShotIds, mkClient]⟩
  · rintro st t path d ⟨hnd, hbound⟩
    constructor
    · rw [oneShotIds_send, List.nodup_append]
      refine ⟨hnd, List.nodup_singleton _, ?_⟩
      intro a ha hb
      simp at hb
      subst hb
      obtain ⟨c, hc, hEq⟩ := hbound _ ha
      have := corrId_inj hEq.symm
      omega
    · intro nm hm
      rw [oneShotIds_send] at hm
      rcases List.mem_append.mp hm with hm1 | hm2
      · obtain ⟨c, hc, hEq⟩ := hbound nm hm1
        exact ⟨c, by simp [send]; omega, hEq⟩
      · simp at hm2
        exact ⟨st.callbacks, by simp [send], hm2⟩
  · rintro st p ⟨hnd, hbound⟩
    have hsub := (handle_handlers_sublist st p).filterMap (fun h =>
      match h.behavior with
      | .oneShot _ => some h.name
      | .user _ => none)
    constructor
    · exact hnd.sublist hsub
    · intro nm hm
      obtain ⟨c, hc, hEq⟩ := hbound nm (hsub.subset hm)
      have hc' := (handle_scalars st p).2.1
      have hid := (handle_scalars st p).1
      exact ⟨c, by rw [hc']; exact hc, by rw [hid]; exact hEq⟩
  · rintro st name type tag ⟨hnd, hbound⟩
    have heq : oneShotIds (registerHandler st name type tag) = oneShotIds st := by
      simp [oneShotIds, registerHandler, List.filterMap_append]
    exact ⟨heq ▸ hnd, fun nm hm => hbound nm (heq ▸ hm)⟩
  · intro st p idx pid h o ht hidx hget hbeh hpend hok
    rw [handle_oneShot_eq ht hidx hget hbeh hok]
    exact ⟨lookupProm_settleList_self st.promises pid o hpend,
      fun q hq => lookupProm_settleList_other st.promises pid q o hq⟩

/-! ## Equation lemmas for `connStep` and `onClose` -/

/-- The `auth/login` call issued by `connect()` when the transport opens. -/
def loginSend (st : ClientState) : SendResult :=
  send st "call" "auth/login" (some (loginPayload st.opts.name))

theorem connStep_open (parse : String → Option JValue) (cs : ConnState) :
    connStep parse cs .sockOpen = connStepOpen cs := rfl

theorem connStep_msg (parse : String → Option JValue) (cs : ConnState)
    (raw : String) :
    connStep parse cs (.message raw) = connStepMsg parse cs raw := rfl

theorem connStepOpen_awaiting {cs : ConnState} (hph : cs.phase = .awaitingOpen) :
    connStepOpen cs =
      ({ client := (loginSend cs.client).state,
         phase := .authing (loginSend cs.client).pid (loginSend cs.client).wire.i },
       [.wrote (loginSend cs.client).wire]) := by
  unfold connStepOpen loginSend
  rw [hph]

theorem connStepOpen_authing {cs : ConnState} {pid : Nat} {lid : String}
    (hph : cs.phase = .authing pid lid) :
    connStepOpen cs = (cs, []) := by
  unfold connStepOpen
  rw [hph]

theorem connStepOpen_opened {cs : ConnState} (hph : cs.phase = .opened) :
    connStepOpen cs = (cs, []) := by
  unfold connStepOpen
  rw [hph]

theorem connStepOpen_failed {cs : ConnState} (hph : cs.phase = .failed) :
    connStepOpen cs = (cs, []) := by
  unfold connStepOpen
  rw [hph]

theorem connStep_close {parse : String → Option JValue} {cs : ConnState}
    {code : Int} :
    connStep parse cs (.closeEvt code) =
      ({ client := (onClose cs.client code).1, phase := cs.phase },
        (onClose cs.client code).2) := rfl

theorem connStepMsg_awaiting {parse : String → Option JValue} {cs : ConnState}
    {raw : String} (hph : cs.phase = .awaitingOpen) :
    connStepMsg parse cs raw =
      ({ client := (onMessage parse cs.client raw).state, phase := .awaitingOpen },
        (onMessage parse cs.client raw).events) := by
  unfold connStepMsg
  rw [hph]

theorem connStepMsg_opened {parse : String → Option JValue} {cs : ConnState}
    {raw : String} (hph : cs.phase = .opened) :
    connStepMsg parse cs raw =
      ({ client := (onMessage parse cs.client raw).state, phase := .opened },
        (onMessage parse cs.client raw).events) := by
  unfold connStepMsg
  rw [hph]

theorem connStepMsg_failed {parse : String → Option JValue} {cs : ConnState}
    {raw : String} (hph : cs.phase = .failed) :
    connStepMsg parse cs raw =
      ({ client := (onMessage parse cs.client raw).state, phase := .failed },
        (onMessage parse cs.client raw).events) := by
  unfold connStepMsg
  rw [hph]

theorem connStepMsg_authing {parse : String → Option JValue} {cs : ConnState}
    {raw : String} {pid : Nat} {lid : String}
    (hph : cs.phase = .authing pid lid) :
    connStepMsg parse cs raw =
      connStepAuth (onMessage parse cs.client raw) pid lid := by
  unfold connStepMsg
  rw [hph]

theorem connStepAuth_resolved {r : HandleResult} {pid : Nat} {lid : String}
    {v : Option JValue}
    (hres : lookupProm r.state.promises pid = some (.resolved v)) :
    connStepAuth r pid lid =
      ({ client := { r.state with reconnectTries := 0 }, phase := .opened },
        r.events ++ [.connectEvent]) := by
  unfold connStepAuth
  rw [hres]

theorem connStepAuth_rejected {r : HandleResult} {pid : Nat} {lid m : String}
    (hres : lookupProm r.state.promises pid = some (.rejected m)) :
    connStepAuth r pid lid = ({ client := r.state, phase := .failed }, r.events) := by
  unfold connStepAuth
  rw [hres]

theorem connStepAuth_stay {r : HandleResult} {pid : Nat} {lid : String}
    (hres : lookupProm r.state.promises pid = some .pending) :
    connStepAuth r pid lid =
      ({ client := r.state, phase := .authing pid lid }, r.events) := by
  unfold connStepAuth
  rw [hres]

theorem connStepAuth_none {r : HandleResult} {pid : Nat} {lid : String}
    (hres : lookupProm r.state.promises pid = none) :
    connStepAuth r pid lid =
      ({ client := r.state, phase := .authing pid lid }, r.events) := by
  unfold connStepAuth
  rw [hres]

theorem onClose_auto {st : ClientState} {code : Int}
    (ha : st.opts.autoReconnect = true) :
    onClose st code =
      ({ st with reconnectTries := st.reconnectTries + 1 },
       [.closeEvent code,
        .reconnectScheduled ((st.reconnectTries + 1) * st.opts.reconnectInterval *
          st.opts.reconnectIntervalMultiplier)]) := by
  unfold onClose
  rw [if_pos ha]

theorem onClose_noAuto {st : ClientState} {code : Int}
    (ha : st.opts.autoReconnect = false) :
    onClose st code = (st, [.closeEvent code]) := by
  unfold onClose
  rw [if_neg (by simp [ha])]

theorem onClose_opts (st : ClientState) (code : Int) :
    (onClose st code).1.opts = st.opts := by
  unfold onClose
  split <;> rfl

def c3Client : ClientState := (callSend (mkClient {} "u-3") "a/b" none).state

def c3Reply : PacketW :=
  { t := some (.jstr "callback"), i := some (.jstr "u-3-0"), d := some (.jobj []) }

theorem correlation_ids_unique_witness :
    idsOK (send (mkClient {} "u-3") "call" "a/b" none).state ∧
    (lookupProm (handle c3Client c3Reply).state.promises 0 =
        some (.resolved (some (.jobj []))) ∧
      ∀ q, q ≠ 0 → lookupProm (handle c3Client c3Reply).state.promises q =
        lookupProm c3Client.promises q) :=
  ⟨correlation_ids_unique.2.1 (mkClient {} "u-3") "call" "a/b" none
      (correlation_ids_unique.1 {} "u-3"),
   correlation_ids_unique.2.2.2.2 c3Client c3Reply 0 0
      ⟨corrId "u-3" 0, "callback", .oneShot 0⟩ (.resolved (some (.jobj [])))
      rfl (by decide) (by decide) rfl rfl rfl⟩

/-! ## C4: linear reconnect backoff -/

/-- The client after `k` consecutive `close` events. -/
def iterClose (st : ClientState) (code : Int) : Nat → ClientState
  | 0 => st
  | k + 1 => (onClose (iterClose st code k) code).1

theorem iterClose_spec (st : ClientState) (code : Int)
    (ha : st.opts.autoReconnect = true) :
    ∀ k, (iterClose st code k).reconnectTries = st.reconnectTries + k ∧
      (iterClose st code k).opts = st.opts := by
  intro k
  induction k with
  | zero => exact ⟨rfl, rfl⟩
  | succ k ih =>
    have ha' : (iterClose st code k).opts.autoReconnect = true := by
      rw [ih.2]; exact ha
    constructor
    · show (onClose (iterClose st code k) code).1.reconnectTries = _
      rw [onClose_auto ha']
      show (iterClose st code k).reconnectTries + 1 = _
      rw [ih.1]
      omega
    · show (onClose (iterClose st code k) code).1.opts = _
      rw [onClose_opts, ih.2]

/-- C4: with auto-reconnect on and the retry counter at 0, the `k`-th
transport closure (k ≥ 1, counted since the last counter reset) schedules
the reconnect timer with a delay of exactly
`k * reconnectInterval * reconnectIntervalMultiplier`; the counter
increments on every closure; and the step that emits the `connect` event —
the login callback's arrival — is exactly the one that resets the counter
to 0.  A scheduled timer actually starts an attempt iff the session is not
destroyed. -/
theorem linear_backoff :
    (∀ (st : ClientState) (code : Int) (k : Nat),
      st.opts.autoReconnect = true → st.reconnectTries = 0 →
      (onClose (iterClose st code k) code).2 =
        [.closeEvent code,
         .reconnectScheduled ((k + 1) * st.opts.reconnectInterval *
            st.opts.reconnectIntervalMultiplier)]) ∧
    (∀ (parse : String → Option JValue) (cs : ConnState) (e : InEvent),
      Ev.connectEvent ∈ (connStep parse cs e).2 →
      (connStep parse cs e).1.client.reconnectTries = 0) ∧
    (∀ st : ClientState, st.destroyed = false → reconnectTimerFires st = true) := by
  refine ⟨?_, ?_, ?_⟩
  · intro st code k ha h0
    have hs := iterClose_spec st code ha k
    have ha' : (iterClose st code k).opts.autoReconnect = true := by
      rw [hs.2]; exact ha
    rw [onClose_auto ha', hs.1, hs.2, h0]
    simp
  · intro parse cs e hmem
    cases e with
    | sockOpen =>
      rw [connStep_open] at hmem ⊢
      rcases hph : cs.phase with _ | ⟨pid, lid⟩ | _ | _
      · rw [connStepOpen_awaiting hph] at hmem
        simp at hmem
      · rw [connStepOpen_authing hph] at hmem
        simp at hmem
      · rw [connStepOpen_opened hph] at hmem
        simp at hmem
      · rw [connStepOpen_failed hph] at hmem
        simp at hmem
    | closeEvt code =>
      rw [connStep_close] at hmem
      by_cases ha : cs.client.opts.autoReconnect
      · rw [onClose_auto ha] at hmem
        simp at hmem
      · rw [onClose_noAuto (by simpa using ha)] at hmem
        simp at hmem
    | message raw =>
      have hnc : Ev.connectEvent ∉ (onMessage parse cs.client raw).events := by
        rcases onMessage_cases parse cs.client raw with hcase | ⟨v, _, _, hcase⟩ <;>
          rw [hcase]
        · simp
        · intro hmm
          rcases handle_events_mem cs.client (toPacket v) _ hmm with h1 | ⟨tag, h1⟩ <;>
            simp at h1
      rw [connStep_msg] at hmem ⊢
      rcases hph : cs.phase with _ | ⟨pid, lid⟩ | _ | _
      · rw [connStepMsg_awaiting hph] at hmem
        exact absurd hmem hnc
      · rw [connStepMsg_authing hph] at hmem ⊢
        rcases hlp : lookupProm (onMessage parse cs.client raw).state.promises pid
          with _ | ps
        · rw [connStepAuth_none hlp] at hmem
          exact absurd hmem hnc
        · cases ps with
          | pending =>
            rw [connStepAuth_stay hlp] at hmem
            exact absurd hmem hnc
          | resolved v =>
            rw [connStepAuth_resolved hlp]
          | rejected m =>
            rw [connStepAuth_rejected hlp] at hmem
            exact absurd hmem hnc
      · rw [connStepMsg_opened hph] at hmem
        exact absurd hmem hnc
      · rw [connStepMsg_failed hph] at hmem
        exact absurd hmem hnc
  · intro st hd
    unfold reconnectTimerFires
    rw [hd]
    rfl

theorem linear_backoff_witness :
    (mkClient {} "u-4").opts.autoReconnect = true ∧
    (mkClient {} "u-4").reconnectTries = 0 ∧
    (onClose (iterClose (mkClient {} "u-4") 1006 0) 1006).2 =
      [.closeEvent 1006, .reconnectScheduled (1 * 2000 * 1)] ∧
    (onClose (iterClose (mkClient {} "u-4") 1006 1) 1006).2 =
      [.closeEvent 1006, .reconnectScheduled (2 * 2000 * 1)] :=
  ⟨rfl, rfl,
   linear_backoff.1 (mkClient {} "u-4") 1006 0 rfl rfl,
   linear_backoff.1 (mkClient {} "u-4") 1006 1 rfl rfl⟩

/-! ## C5 infrastructure: preservation lemmas and the dispatch source of a
promise settlement -/

theorem connect_not_in_onMessage (parse : String → Option JValue)
    (st : ClientState) (raw : String) :
    Ev.connectEvent ∉ (onMessage parse st raw).events := by
  rcases onMessage_cases parse st raw with hc | ⟨v, _, _, hc⟩ <;> rw [hc]
  · simp
  · intro hmm
    rcases handle_events_mem st (toPacket v) _ hmm with h1 | ⟨tag, h1⟩ <;> simp at h1

theorem onMessage_state_cases (parse : String → Option JValue)
    (st : ClientState) (raw : String) :
    (onMessage parse st raw).state = st ∨
    ∃ v, (onMessage parse st raw).state = (handle st (toPacket v)).state := by
  rcases onMessage_cases parse st raw with hc | ⟨v, _, _, hc⟩ <;> rw [hc]
  · left; rfl
  · right; exact ⟨v, rfl⟩

theorem onMessage_scalars (parse : String → Option JValue) (st : ClientState)
    (raw : String) :
    (onMessage parse st raw).state.id = st.id ∧
    (onMessage parse st raw).state.callbacks = st.callbacks ∧
    (onMessage parse st raw).state.nextPid = st.nextPid := by
  rcases onMessage_state_cases parse st raw with hc | ⟨v, hc⟩ <;> rw [hc]
  · exact ⟨rfl, rfl, rfl⟩
  · exact ⟨(handle_scalars st (toPacket v)).1, (handle_scalars st (toPacket v)).2.1,
      (handle_scalars st (toPacket v)).2.2.1⟩

theorem onMessage_handlers_subset (parse : String → Option JValue)
    (st : ClientState) (raw : String) :
    ∀ h ∈ (onMessage parse st raw).state.handlers, h ∈ st.handlers := by
  rcases onMessage_state_cases parse st raw with hc | ⟨v, hc⟩ <;> rw [hc]
  · exact fun _ hm => hm
  · exact handle_handlers_subset st (toPacket v)

theorem onMessage_promKeys (parse : String → Option JValue) (st : ClientState)
    (raw : String) :
    (onMessage parse st raw).state.promises.map Prod.fst =
      st.promises.map Prod.fst := by
  rcases onMessage_state_cases parse st raw with hc | ⟨v, hc⟩ <;> rw [hc]
  · exact handle_promKeys st (toPacket v)

theorem onClose_client_parts (st : ClientState) (code : Int) :
    (onClose st code).1.handlers = st.handlers ∧
    (onClose st code).1.promises = st.promises ∧
    (onClose st code).1.id = st.id ∧
    (onClose st code).1.callbacks = st.callbacks ∧
    (onClose st code).1.nextPid = st.nextPid := by
  unfold onClose
  split <;> exact ⟨rfl, rfl, rfl, rfl, rfl⟩

theorem connect_not_in_onClose (st : ClientState) (code : Int) :
    Ev.connectEvent ∉ (onClose st code).2 := by
  by_cases ha : st.opts.autoReconnect
  · rw [onClose_auto ha]; simp
  · rw [onClose_noAuto (by simpa using ha)]; simp

/-- If a dispatch changed the state of promise `pid`, the dispatched
handler was a one-shot entry for `pid` and the inbound packet matched it
through one of the two lookup branches. -/
theorem handle_settle_source (st : ClientState) (p : PacketW) (pid : Nat)
    (hch : lookupProm (handle st p).state.promises pid ≠
      lookupProm st.promises pid) :
    ∃ h, h ∈ st.handlers ∧ h.behavior = .oneShot pid ∧
      ((jsEqStr p.t "callback" = true ∧ callbackMatches p.i h = true) ∨
       (jsEqStr p.t "callback" = false ∧ handlerMatches p.n p.t h = true)) := by
  by_cases ht : jsEqStr p.t "callback"
  · rcases hidx : firstIdx (callbackMatches p.i) st.handlers with _ | idx
    · rw [handle_cb_noMatch ht hidx] at hch
      exact absurd rfl hch
    · rcases hget : st.handlers[idx]? with _ | h
      · have heq : handle st p = ⟨st, [.errorEvent "Invalid packet"], none⟩ := by
          unfold handle
          rw [if_pos ht, hidx]
          simp only [hget]
        rw [heq] at hch
        exact absurd rfl hch
      · have hmem : h ∈ st.handlers := by
          obtain ⟨hlt, hEq⟩ := List.getElem?_eq_some_iff.mp hget
          exact hEq ▸ List.getElem_mem hlt
        obtain ⟨h', hget', hpred⟩ := firstIdx_spec _ _ _ hidx
        have hh' : h' = h := by
          rw [hget] at hget'
          injection hget' with hv
          exact hv.symm
        rw [hh'] at hpred
        rcases hb : h.behavior with pid' | tag
        · rcases hcs : callbackSettle p.d with e | o
          · have heq : handle st p = ⟨st, [], some e⟩ := by
              have hiv := @invoke_oneShot_err st h p pid' e hb hcs
              have hth : (invokeHandler st h p).thrown = some e := by rw [hiv]
              rw [handle_cb_thrown ht hidx hget hth, hiv]
            rw [heq] at hch
            exact absurd rfl hch
          · have heq := handle_oneShot_eq ht hidx hget hb hcs
            rw [heq] at hch
            have hpp : pid = pid' :=
              lookupProm_settleList_changed st.promises pid' pid o hch
            exact ⟨h, hmem, hpp ▸ hb, Or.inl ⟨ht, hpred⟩⟩
        · have hiv := @invoke_user st h p tag hb
          have hth : (invokeHandler st h p).thrown = none := by rw [hiv]
          have heq := handle_cb_ok ht hidx hget hth
          rw [heq, hiv] at hch
          exact absurd rfl hch
  · have ht' : jsEqStr p.t "callback" = false := by simpa using ht
    rcases hf : st.handlers.find? (handlerMatches p.n p.t) with _ | h
    · rw [handle_ncb_noMatch ht' hf] at hch
      exact absurd rfl hch
    · have heq := handle_ncb_found ht' hf
      rw [heq] at hch
      rcases hb : h.behavior with pid' | tag
      · rcases hcs : callbackSettle p.d with e | o
        · rw [@invoke_oneShot_err st h p pid' e hb hcs] at hch
          exact absurd rfl hch
        · rw [@invoke_oneShot_ok st h p pid' o hb hcs] at hch
          have hpp : pid = pid' :=
            lookupProm_settleList_changed st.promises pid' pid o hch
          exact ⟨h, List.mem_of_find?_eq_some hf, hpp ▸ hb,
            Or.inr ⟨ht', List.find?_some hf⟩⟩
      · rw [@invoke_user st h p tag hb] at hch
        exact absurd rfl hch

theorem wfB_spec {st : ClientState} (hw : wfB st = true) :
    (∀ h ∈ st.handlers, ∀ pid, h.behavior = .oneShot pid → pid < st.nextPid) ∧
    (∀ kv ∈ st.promises, kv.1 < st.nextPid) := by
  unfold wfB at hw
  simp only [Bool.and_eq_true, List.all_eq_true] at hw
  obtain ⟨h1, h2⟩ := hw
  constructor
  · intro h hm pid hb
    have := h1 h hm
    rw [hb] at this
    simpa using this
  · intro kv hm
    simpa using h2 kv hm

theorem wfB_of_spec {st : ClientState}
    (h1 : ∀ h ∈ st.handlers, ∀ pid, h.behavior = .oneShot pid → pid < st.nextPid)
    (h2 : ∀ kv ∈ st.promises, kv.1 < st.nextPid) : wfB st = true := by
  unfold wfB
  simp only [Bool.and_eq_true, List.all_eq_true]
  constructor
  · intro h hm
    rcases hb : h.behavior with pid | tag
    · simpa using h1 h hm pid hb
    · rfl
  · intro kv hm
    simpa using h2 kv hm

theorem wfB_onMessage (parse : String → Option JValue) (st : ClientState)
    (raw : String) (hw : wfB st = true) :
    wfB (onMessage parse st raw).state = true := by
  obtain ⟨h1, h2⟩ := wfB_spec hw
  apply wfB_of_spec
  · intro h hm pid hb
    rw [(onMessage_scalars parse st raw).2.2]
    exact h1 h (onMessage_handlers_subset parse st raw h hm) pid hb
  · intro kv hm
    rw [(onMessage_scalars parse st raw).2.2]
    have hk1 : kv.1 ∈ (onMessage parse st raw).state.promises.map Prod.fst :=
      List.mem_map_of_mem _ hm
    rw [onMessage_promKeys] at hk1
    obtain ⟨kv', hm', hk⟩ := List.mem_map.mp hk1
    exact hk ▸ h2 kv' hm'

theorem wfB_onClose (st : ClientState) (code : Int) :
    wfB (onClose st code).1 = wfB st := by
  unfold onClose wfB
  split <;> rfl

theorem runConn_no_connect_terminal (parse : String → Option JValue) :
    ∀ (events : List InEvent) (cs : ConnState),
      (cs.phase = .opened ∨ cs.phase = .failed) →
      Ev.connectEvent ∉ (runConn parse cs events).2 := by
  intro events
  induction events with
  | nil => intro cs _; simp [runConn]
  | cons e es ih =>
    intro cs hph
    simp only [runConn, List.mem_append]
    rintro (hmem | hmem)
    · cases e with
      | sockOpen =>
        rcases hph with hph | hph
        · rw [connStep_open, connStepOpen_opened hph] at hmem
          simp at hmem
        · rw [connStep_open, connStepOpen_failed hph] at hmem
          simp at hmem
      | message raw =>
        rcases hph with hph | hph
        · rw [connStep_msg, connStepMsg_opened hph] at hmem
          exact connect_not_in_onMessage parse cs.client raw hmem
        · rw [connStep_msg, connStepMsg_failed hph] at hmem
          exact connect_not_in_onMessage parse cs.client raw hmem
      | closeEvt code =>
        rw [connStep_close] at hmem
        exact connect_not_in_onClose cs.client code hmem
    · have hph' : (connStep parse cs e).1.phase = .opened ∨
          (connStep parse cs e).1.phase = .failed := by
        cases e with
        | sockOpen =>
          rcases hph with hph | hph
          · rw [connStep_open, connStepOpen_opened hph]
            exact Or.inl hph
          · rw [connStep_open, connStepOpen_failed hph]
            exact Or.inr hph
        | message raw =>
          rcases hph with hph | hph
          · rw [connStep_msg, connStepMsg_opened hph]
            exact Or.inl rfl
          · rw [connStep_msg, connStepMsg_failed hph]
            exact Or.inr rfl
        | closeEvt code =>
          rw [connStep_close]
          exact hph
      exact ih _ hph' hmem

/-- An inbound envelope shape that can reach the login call's one-shot
handler (correlation id `lid`): either a callback-kind envelope whose
stringified `i` equals `lid`, or — because `findHandler` skips the type
check when the inbound `t` is falsy — an envelope with falsy `t` whose `n`
equals `lid`. -/
def canSettleLogin (lid : String) (p : PacketW) : Bool :=
  (jsEqStr p.t "callback" && (jsToString p.i == lid)) ||
  (!jsEqStr p.t "callback" && jsEqStr p.n lid && !truthyOpt p.t)

theorem canSettleLogin_of_match {lid : String} {p : PacketW} {h : HandlerEntry}
    (hnm : h.name = lid) (htp : h.type = "callback")
    (hmatch : (jsEqStr p.t "callback" = true ∧ callbackMatches p.i h = true) ∨
      (jsEqStr p.t "callback" = false ∧ handlerMatches p.n p.t h = true)) :
    canSettleLogin lid p = true := by
  unfold canSettleLogin
  rcases hmatch with ⟨ht, hcm⟩ | ⟨ht, hhm⟩
  · unfold callbackMatches at hcm
    simp only [Bool.and_eq_true, decide_eq_true_eq] at hcm
    have hi : jsToString p.i = lid := by rw [← hcm.1, hnm]
    simp [ht, hi]
  · unfold handlerMatches at hhm
    simp only [Bool.and_eq_true, Bool.or_eq_true] at hhm
    obtain ⟨hn, hor⟩ := hhm
    rcases hor with hfalsy | htt
    · rw [hnm] at hn
      simp [ht, hn, hfalsy]
    · rw [htp] at htt
      rw [ht] at htt
      exact absurd htt (by simp)

theorem runConn_authing (parse : String → Option JValue) :
    ∀ (events : List InEvent) (cs : ConnState) (pid : Nat) (lid : String),
      cs.phase = .authing pid lid →
      (∀ h ∈ cs.client.handlers, h.behavior = .oneShot pid →
        h.name = lid ∧ h.type = "callback") →
      lookupProm cs.client.promises pid = some .pending →
      Ev.connectEvent ∈ (runConn parse cs events).2 →
      ∃ raw, InEvent.message raw ∈ events ∧
        ∃ v, parse raw = some v ∧ truthy v = true ∧
          canSettleLogin lid (toPacket v) = true := by
  intro events
  induction events with
  | nil =>
    intro cs pid lid hph hinv hpend hmem
    simp [runConn] at hmem
  | cons e es ih =>
    intro cs pid lid hph hinv hpend hmem
    simp only [runConn, List.mem_append] at hmem
    cases e with
    | sockOpen =>
      rw [connStep_open, connStepOpen_authing hph] at hmem
      rcases hmem with hmem | hmem
      · simp at hmem
      · obtain ⟨raw, hraw, rest⟩ := ih cs pid lid hph hinv hpend hmem
        exact ⟨raw, List.mem_cons_of_mem _ hraw, rest⟩
    | closeEvt code =>
      rw [connStep_close] at hmem
      rcases hmem with hmem | hmem
      · exact absurd hmem (connect_not_in_onClose cs.client code)
      · have hparts := onClose_client_parts cs.client code
        obtain ⟨raw, hraw, rest⟩ := ih
          ⟨(onClose cs.client code).1, cs.phase⟩ pid lid hph
          (by rw [hparts.1]; exact hinv)
          (by rw [hparts.2.1]; exact hpend) hmem
        exact ⟨raw, List.mem_cons_of_mem _ hraw, rest⟩
    | message raw =>
      rw [connStep_msg, connStepMsg_authing hph] at hmem
      rcases hlp : lookupProm (onMessage parse cs.client raw).state.promises pid
        with _ | ps
      · exfalso
        have hiso := lookupProm_isSome_of_keys_eq
          (onMessage parse cs.client raw).state.promises cs.client.promises pid
          (onMessage_promKeys parse cs.client raw)
        rw [hlp, hpend] at hiso
        simp at hiso
      · cases ps with
        | pending =>
          rw [connStepAuth_stay hlp] at hmem
          rcases hmem with hmem | hmem
          · exact absurd hmem (connect_not_in_onMessage parse cs.client raw)
          · obtain ⟨raw2, hraw2, rest⟩ := ih
              ⟨(onMessage parse cs.client raw).state, .authing pid lid⟩ pid lid rfl
              (fun h hm hb =>
                hinv h (onMessage_handlers_subset parse cs.client raw h hm) hb)
              hlp hmem
            exact ⟨raw2, List.mem_cons_of_mem _ hraw2, rest⟩
        | resolved v =>
          refine ⟨raw, List.mem_cons_self _ _, ?_⟩
          rcases onMessage_cases parse cs.client raw with hc | ⟨v2, hpv, htr, hc⟩
          · exfalso
            rw [hc] at hlp
            rw [hpend] at hlp
            simp at hlp
          · have hch : lookupProm (handle cs.client (toPacket v2)).state.promises
                pid ≠ lookupProm cs.client.promises pid := by
              rw [hc] at hlp
              rw [hlp, hpend]
              simp
            obtain ⟨h, hm, hb, hmatch⟩ := handle_settle_source _ _ _ hch
            obtain ⟨hnm, htp⟩ := hinv h hm hb
            exact ⟨v2, hpv, htr, canSettleLogin_of_match hnm htp hmatch⟩
        | rejected m =>
          rw [connStepAuth_rejected hlp] at hmem
          rcases hmem with hmem | hmem
          · exact absurd hmem (connect_not_in_onMessage parse cs.client raw)
          · exact absurd hmem (runConn_no_connect_terminal parse es _ (Or.inr rfl))

theorem runConn_awaiting (parse : String → Option JValue) :
    ∀ (events : List InEvent) (cs : ConnState),
      cs.phase = .awaitingOpen → wfB cs.client = true →
      Ev.connectEvent ∈ (runConn parse cs events).2 →
      InEvent.sockOpen ∈ events ∧
      ∃ raw, InEvent.message raw ∈ events ∧
        ∃ v, parse raw = some v ∧ truthy v = true ∧
          canSettleLogin (corrId cs.client.id cs.client.callbacks)
            (toPacket v) = true := by
  intro events
  induction events with
  | nil =>
    intro cs hph hw hmem
    simp [runConn] at hmem
  | cons e es ih =>
    intro cs hph hw hmem
    simp only [runConn, List.mem_append] at hmem
    cases e with
    | sockOpen =>
      rw [connStep_open, connStepOpen_awaiting hph] at hmem
      rcases hmem with hmem | hmem
      · simp at hmem
      · obtain ⟨hs1, hs2⟩ := wfB_spec hw
        have hinv : ∀ h ∈ (loginSend cs.client).state.handlers,
            h.behavior = .oneShot (loginSend cs.client).pid →
            h.name = (loginSend cs.client).wire.i ∧ h.type = "callback" := by
          intro h hm hb
          rcases List.mem_append.mp hm with hold | hnew
          · exfalso
            have hlt := hs1 h hold _ hb
            exact Nat.lt_irrefl _ hlt
          · simp at hnew
            exact ⟨by rw [hnew]; rfl, by rw [hnew]⟩
        have hpend : lookupProm (loginSend cs.client).state.promises
            (loginSend cs.client).pid = some .pending := by
          apply lookupProm_append_fresh
          intro kv hm
          have hlt := hs2 kv hm
          show kv.1 ≠ cs.client.nextPid
          omega
        obtain ⟨raw, hraw, v, hpv, htr, hcs⟩ :=
          runConn_authing parse es _ _ _ rfl hinv hpend hmem
        exact ⟨List.mem_cons_self _ _, raw, List.mem_cons_of_mem _ hraw,
          v, hpv, htr, hcs⟩
    | message raw =>
      rw [connStep_msg, connStepMsg_awaiting hph] at hmem
      rcases hmem with hmem | hmem
      · exact absurd hmem (connect_not_in_onMessage parse cs.client raw)
      · obtain ⟨hso, raw2, hraw2, rest⟩ := ih
          ⟨(onMessage parse cs.client raw).state, .awaitingOpen⟩ rfl
          (wfB_onMessage parse cs.client raw hw) hmem
        have hid := (onMessage_scalars parse cs.client raw).1
        have hcb := (onMessage_scalars parse cs.client raw).2.1
        rw [show (⟨(onMessage parse cs.client raw).state, .awaitingOpen⟩ :
            ConnState).client = (onMessage parse cs.client raw).state from rfl,
          hid, hcb] at rest
        exact ⟨List.mem_cons_of_mem _ hso, raw2, List.mem_cons_of_mem _ hraw2, rest⟩
    | closeEvt code =>
      rw [connStep_close] at hmem
      rcases hmem with hmem | hmem
      · exact absurd hmem (connect_not_in_onClose cs.client code)
      · have hparts := onClose_client_parts cs.client code
        obtain ⟨hso, raw2, hraw2, rest⟩ := ih
          ⟨(onClose cs.client code).1, cs.phase⟩ hph
          (by rw [wfB_onClose]; exact hw) hmem
        rw [show (⟨(onClose cs.client code).1, cs.phase⟩ :
            ConnState).client = (onClose cs.client code).1 from rfl,
          hparts.2.2.1, hparts.2.2.2.1] at rest
        exact ⟨List.mem_cons_of_mem _ hso, raw2, List.mem_cons_of_mem _ hraw2, rest⟩

/-- The only step that emits `connect` is the one that resumes
`connect()` after the login promise resolved, and that step sets
`reconnectTries := 0`. -/
theorem connStep_connect_resets_tries (parse : String → Option JValue)
    (cs : ConnState) (e : InEvent)
    (hmem : Ev.connectEvent ∈ (connStep parse cs e).2) :
    (connStep parse cs e).1.client.reconnectTries = 0 := by
  cases e with
  | sockOpen =>
    rw [connStep_open] at hmem ⊢
    rcases hph : cs.phase with _ | ⟨pid, lid⟩ | _ | _
    · rw [connStepOpen_awaiting hph] at hmem
      simp at hmem
    · rw [connStepOpen_authing hph] at hmem
      simp at hmem
    · rw [connStepOpen_opened hph] at hmem
      simp at hmem
    · rw [connStepOpen_failed hph] at hmem
      simp at hmem
  | closeEvt code =>
    rw [connStep_close] at hmem
    exact absurd hmem (connect_not_in_onClose cs.client code)
  | message raw =>
    rw [connStep_msg] at hmem ⊢
    rcases hph : cs.phase with _ | ⟨pid, lid⟩ | _ | _
    · rw [connStepMsg_awaiting hph] at hmem
      exact absurd hmem (connect_not_in_onMessage parse cs.client raw)
    · rw [connStepMsg_authing hph] at hmem ⊢
      rcases hlp : lookupProm (onMessage parse cs.client raw).state.promises pid
        with _ | ps
      · rw [connStepAuth_none hlp] at hmem
        exact absurd hmem (connect_not_in_onMessage parse cs.client raw)
      · cases ps with
        | pending =>
          rw [connStepAuth_stay hlp] at hmem
          exact absurd hmem (connect_not_in_onMessage parse cs.client raw)
        | resolved v =>
          rw [connStepAuth_resolved hlp]
        | rejected m =>
          rw [connStepAuth_rejected hlp] at hmem
          exact absurd hmem (connect_not_in_onMessage parse cs.client raw)
    · rw [connStepMsg_opened hph] at hmem
      exact absurd hmem (connect_not_in_onMessage parse cs.client raw)
    · rw [connStepMsg_failed hph] at hmem
      exact absurd hmem (connect_not_in_onMessage parse cs.client raw)

/-- C5 (amended): a run of `connect()` emits the `connect` event only if
the transport has reported `open` (which triggers the `auth/login` call,
sent with the configured session name) and some inbound frame has resolved
that call's promise.  Because `findHandler` skips the type check on a
falsy inbound `t`, the resolving frame is either a callback envelope whose
id is the login call's correlation id, or an envelope with falsy `t` whose
action name equals that correlation id — it need not be a callback
envelope.  The step that emits the event is also the one that resets the
reconnect-attempt counter to 0. -/
theorem connect_requires_open_and_login_settlement
    (parse : String → Option JValue) (st : ClientState)
    (tok : Except Unit String) (events : List InEvent)
    (hw : wfB st = true)
    (hmem : Ev.connectEvent ∈ (runConn parse (connectStart st tok) events).2) :
    (InEvent.sockOpen ∈ events ∧
     ∃ raw, InEvent.message raw ∈ events ∧
       ∃ v, parse raw = some v ∧ truthy v = true ∧
         canSettleLogin (corrId st.id st.callbacks) (toPacket v) = true) ∧
    (∀ (cs : ConnState) (e : InEvent),
      Ev.connectEvent ∈ (connStep parse cs e).2 →
      (connStep parse cs e).1.client.reconnectTries = 0) :=
  ⟨runConn_awaiting parse events (connectStart st tok) rfl hw hmem,
   fun cs e => connStep_connect_resets_tries parse cs e⟩

def c5Parse : String → Option JValue := fun s =>
  if s = "weird" then some (.jobj [("n", .jstr "u-5-0"), ("d", .jobj [])]) else none

def c5Init : ConnState := connectStart (mkClient {} "u-5") (.ok "tok")

/-- C5 counterexample: after the transport opens, a single inbound frame
`{n: "<login correlation id>", d: {}}` — which is *not* a callback envelope
(its `t` is absent) — resolves the `auth/login` promise through the
type-unchecked `findHandler(n, undefined)` path, and `connect` is emitted:
the claim that the event waits for "the callback for the auth/login call"
is refuted, since the only message of the run is not a callback. -/
theorem connect_without_callback_counterexample :
    Ev.connectEvent ∈ (runConn c5Parse c5Init [.sockOpen, .message "weird"]).2 ∧
    (∀ raw, InEvent.message raw ∈ ([.sockOpen, .message "weird"] : List InEvent) →
      raw = "weird") ∧
    c5Parse "weird" = some (.jobj [("n", .jstr "u-5-0"), ("d", .jobj [])]) ∧
    jsEqStr (toPacket (.jobj [("n", .jstr "u-5-0"), ("d", .jobj [])])).t
      "callback" = false := by
  refine ⟨?_, ?_, rfl, rfl⟩
  · have hrun : (runConn c5Parse c5Init [.sockOpen, .message "weird"]).2 =
        [Ev.wrote (loginSend c5Init.client).wire, Ev.connectEvent] := rfl
    rw [hrun]
    exact List.Mem.tail _ (List.Mem.head _)
  · intro raw h
    rcases List.mem_cons.mp h with h1 | h2
    · exact absurd h1 (by simp)
    · rcases List.mem_cons.mp h2 with h3 | h4
      · injection h3
      · simp at h4

def c5ParseCb : String → Option JValue := fun s =>
  if s = "reply" then
    some (.jobj [("t", .jstr "callback"), ("i", .jstr "u-5b-0"),
      ("d", .jobj [("status", .jnum 200)])])
  else none

theorem connect_requires_open_and_login_settlement_witness :
    (InEvent.sockOpen ∈ ([.sockOpen, .message "reply"] : List InEvent) ∧
     ∃ raw, InEvent.message raw ∈ ([.sockOpen, .message "reply"] : List InEvent) ∧
       ∃ v, c5ParseCb raw = some v ∧ truthy v = true ∧
         canSettleLogin (corrId "u-5b" 0) (toPacket v) = true) ∧
    (∀ (cs : ConnState) (e : InEvent),
      Ev.connectEvent ∈ (connStep c5ParseCb cs e).2 →
      (connStep c5ParseCb cs e).1.client.reconnectTries = 0) := by
  have hrun : (runConn c5ParseCb (connectStart (mkClient {} "u-5b") (.ok "tok"))
      [.sockOpen, .message "reply"]).2 =
      [Ev.wrote
        (loginSend (connectStart (mkClient {} "u-5b") (.ok "tok")).client).wire,
       Ev.connectEvent] := rfl
  exact connect_requires_open_and_login_settlement c5ParseCb (mkClient {} "u-5b")
    (.ok "tok") [.sockOpen, .message "reply"] rfl
    (by rw [hrun]; exact List.Mem.tail _ (List.Mem.head _))
